import Mathlib

/-!
# Verification of the `simple-rust-cov` coverage gate (src/main.rs)

A shallow embedding of the coverage-gate tool's pure logic:

* numeric values of type `f32` in the source are modelled as exact
  rationals (`ℚ`); the claims under study concern the exact arithmetic of
  the parsed percentages, not binary rounding;
* a `panic!` / `.expect` abort is modelled as the `Except.error` branch of
  an `Except Panic _` result, carrying which panic fired;
* the process stdout of an external tool is modelled as its list of lines
  (`List String`), and the filesystem state touched by the artifact-store
  functions as explicit values (a directory listing, an optional
  directory-contents value);
* JSON values produced by `serde_json` are modelled by the inductive
  `Json`, with `serde`'s `Value` indexing (missing key or non-object
  yields `null`).

Each embedded definition keeps the name of the Rust function it is
translated from.
-/

deriving instance DecidableEq for Except

namespace SimpleRustCov

/-- The distinct abort paths of the report-parsing stage: the
`panic!("couldn't find coverage percentages …")` in `find_coverage_line`,
a `Vec` index out of bounds in `execute_report`, and the
`.expect("coverage string was not a valid float")` in
`coverage_pct_from_str`. -/
inductive Panic where
  | notFound (msg : String)
  | indexOutOfBounds (idx : Nat)
  | invalidFloat (msg : String)
deriving DecidableEq, Repr

/-- Model of Rust `str::contains` on character lists: `pat` occurs as a
contiguous substring of `s`. -/
def containsAux (pat : List Char) (s : List Char) : Bool :=
  match s with
  | [] => pat.isPrefixOf []
  | _ :: t => pat.isPrefixOf s || containsAux pat t

/-- Model of Rust `str::contains`. -/
def strContains (s pat : String) : Bool :=
  containsAux pat.data s.data

/-- Model of Rust `str::starts_with` on a string pattern. -/
def starts_with (s pre : String) : Bool :=
  pre.data.isPrefixOf s.data

/-- Model of Rust `str::ends_with` on a string pattern. -/
def ends_with (s post : String) : Bool :=
  post.data.isSuffixOf s.data

/-- Model of Rust `str::split_whitespace`: maximal runs of
non-whitespace characters, in order; no empty tokens. `cur` is the
(reversed) word being accumulated. -/
def split_ws_go (cur : List Char) (cs : List Char) : List String :=
  match cs with
  | [] => if cur.isEmpty then [] else [String.mk cur.reverse]
  | c :: t =>
    if c.isWhitespace then
      if cur.isEmpty then split_ws_go [] t
      else String.mk cur.reverse :: split_ws_go [] t
    else split_ws_go (c :: cur) t

/-- Model of Rust `str::split_whitespace` collected to a `Vec`. -/
def split_whitespace (s : String) : List String :=
  split_ws_go [] s.data

/-- Numeric value of a digit run (most significant first). -/
def digitsVal (l : List Char) : Nat :=
  l.foldl (fun a c => 10 * a + (c.toNat - ('0').toNat)) 0

/-- Optional exponent suffix of a float literal: empty, or
`('e' | 'E') sign? digits`. Returns the scale as a power of ten. -/
def parseExpSuffix (cs : List Char) : Option ℚ :=
  match cs with
  | [] => some 1
  | c :: t =>
    if c = 'e' ∨ c = 'E' then
      let (esign, t) : Int × List Char :=
        match t with
        | '+' :: u => (1, u)
        | '-' :: u => (-1, u)
        | _ => (1, t)
      let eds := t.takeWhile Char.isDigit
      let rest := t.dropWhile Char.isDigit
      if eds.isEmpty ∨ ¬ rest.isEmpty then none
      else some ((10 : ℚ) ^ (esign * (digitsVal eds : Int)))
    else none

/-- Model of Rust `str::parse::<f32>` on finite decimal numerals:
optional sign, then digits with an optional fractional part (at least one
digit overall), then an optional exponent. The special forms `inf` /
`NaN` have no rational counterpart and, like any other alphabetic input,
yield `none`; `f32` rounding is not modelled (values are exact
rationals). -/
def parse_f32 (cs : List Char) : Option ℚ :=
  let (sign, cs) : ℚ × List Char :=
    match cs with
    | '+' :: t => (1, t)
    | '-' :: t => (-1, t)
    | _ => (1, cs)
  let intPart := cs.takeWhile Char.isDigit
  let afterInt := cs.dropWhile Char.isDigit
  match afterInt with
  | '.' :: fracStart =>
    let fracPart := fracStart.takeWhile Char.isDigit
    let afterFrac := fracStart.dropWhile Char.isDigit
    if intPart.isEmpty ∧ fracPart.isEmpty then none
    else
      match parseExpSuffix afterFrac with
      | some scale =>
        some (sign * (digitsVal intPart + digitsVal fracPart / (10 : ℚ) ^ fracPart.length) * scale)
      | none => none
  | _ =>
    if intPart.isEmpty then none
    else
      match parseExpSuffix afterInt with
      | some scale => some (sign * digitsVal intPart * scale)
      | none => none

/-- The characters before the first `'%'` of the token: Rust
`coverage_str.split('%').next()` (the whole string when no `'%'`
occurs). -/
def takeUntilPct (s : String) : List Char :=
  s.data.takeWhile (fun c => ¬ c = '%')

/-- Embedding of `coverage_pct_from_str` (src/main.rs:206-218): `"-"`
maps to `1.0`; otherwise the prefix before the first `'%'` is parsed as a
float and divided by `100`, aborting with
`"coverage string was not a valid float"` when it does not parse. -/
def coverage_pct_from_str (coverage_str : String) : Except Panic ℚ :=
  if coverage_str = "-" then .ok 1
  else
    match parse_f32 (takeUntilPct coverage_str) with
    | some coverage_pct => .ok (coverage_pct / 100)
    | none => .error (.invalidFloat "coverage string was not a valid float")

/-- The parsed coverage report (struct `Report`, src/main.rs:27-31):
`f32` fields modelled as exact rationals. -/
structure Report where
  line_coverage : ℚ
  branch_coverage : ℚ
deriving DecidableEq, Repr

/-- Embedding of `find_coverage_line` (src/main.rs:194-204): the first
line of the captured stdout that contains the token `"TOTAL"`; when no
line does, the `panic!("couldn't find coverage percentages in rust-cov
output: {stdout}")` abort. stdout is modelled as its list of lines. -/
def find_coverage_line (stdout : List String) : Except Panic String :=
  match stdout.find? (fun line => strContains line "TOTAL") with
  | some line => .ok line
  | none =>
    .error (.notFound
      ("couldn't find coverage percentages in rust-cov output: " ++
        String.intercalate "\n" stdout))

/-- Rust `Vec` indexing `v[i]`: out of bounds is a panic. -/
def vecIndex (v : List String) (i : Nat) : Except Panic String :=
  match v.get? i with
  | some x => .ok x
  | none => .error (.indexOutOfBounds i)

/-- Embedding of the stdout-parsing tail of `execute_report`
(src/main.rs:183-191): find the TOTAL line, split it on whitespace, take
fields 6 and 9, and convert each through `coverage_pct_from_str`. The
process-spawning half of the source function is an external-tool call
and is not modelled; this function receives that tool's stdout lines. -/
def execute_report (stdout : List String) : Except Panic Report := do
  let coverage_line ← find_coverage_line stdout
  let coverage_line_parts := split_whitespace coverage_line
  let line_coverage_str ← vecIndex coverage_line_parts 6
  let branch_coverage_str ← vecIndex coverage_line_parts 9
  let line_coverage ← coverage_pct_from_str line_coverage_str
  let branch_coverage ← coverage_pct_from_str branch_coverage_str
  return { line_coverage := line_coverage, branch_coverage := branch_coverage }

/-- The configured minimums of the run (the `min_line_coverage` /
`min_branch_coverage` locals of `main`, src/main.rs:36-39). The project
directory does not take part in the gate and is not modelled. -/
structure RunConfiguration where
  min_line_coverage : ℚ
  min_branch_coverage : ℚ
deriving DecidableEq, Repr

/-- What the gate prints: the values interpolated into the `{}`
placeholders of each `eprintln!` / the success `println!`
(src/main.rs:50-64). `lineFailMsg a b` stands for
`"Line coverage requirement not met (a < b)"`, `branchFailMsg a b` for
`"Branch coverage requirement not met (a < b)"`, and `successMsg` for
`"SUCCESS - All coverage requirements met"`. -/
inductive GateOutput where
  | lineFailMsg (observed required : ℚ)
  | branchFailMsg (observed required : ℚ)
  | successMsg
deriving DecidableEq, Repr

/-- Exit code and printed message of the gate. -/
structure GateResult where
  exitCode : Nat
  output : GateOutput
deriving DecidableEq, Repr

/-- Embedding of the threshold gate at the end of `main`
(src/main.rs:50-65). Note the source's branch-coverage `eprintln!`
interpolates `&report.line_coverage` and `&min_line_coverage`: the
arguments of `branchFailMsg` here are exactly the values the source
prints. -/
def evalGate (report : Report) (config : RunConfiguration) : GateResult :=
  if report.line_coverage < config.min_line_coverage then
    { exitCode := 1,
      output := .lineFailMsg report.line_coverage config.min_line_coverage }
  else if report.branch_coverage < config.min_branch_coverage then
    { exitCode := 1,
      output := .branchFailMsg report.line_coverage config.min_line_coverage }
  else
    { exitCode := 0, output := .successMsg }

/-- Modelled from the spec: the same gate with the two threshold
comparisons performed in the opposite order (branch first), used only to
state that the pass/fail outcome is insensitive to the order of the two
checks. -/
def evalGateBranchFirst (report : Report) (config : RunConfiguration) : GateResult :=
  if report.branch_coverage < config.min_branch_coverage then
    { exitCode := 1,
      output := .branchFailMsg report.line_coverage config.min_line_coverage }
  else if report.line_coverage < config.min_line_coverage then
    { exitCode := 1,
      output := .lineFailMsg report.line_coverage config.min_line_coverage }
  else
    { exitCode := 0, output := .successMsg }

/-- One entry of the project root's immediate directory listing, as
`clear_profraw` inspects it: its file name and whether `file_type()` says
it is a regular file. -/
structure DirEntry where
  name : String
  isFile : Bool
deriving DecidableEq, Repr

/-- Embedding of `clear_profraw` (src/main.rs:103-120) on the project
root's listing: every regular file whose name starts with `"default"`
and ends with `".profraw"` is removed (`fs::remove_file`); directories
and non-matching files are skipped. The result is the listing after the
deletions. -/
def clear_profraw (files : List DirEntry) : List DirEntry :=
  files.filter (fun file =>
    ¬ (file.isFile ∧ starts_with file.name "default" ∧ ends_with file.name ".profraw"))

/-- State of the `.profdata` artifact directory: `none` when absent,
`some entries` when present with the given contents. -/
abbrev ProfdataDir : Type := Option (List String)

/-- Model of `fs::exists` on the artifact directory. -/
def fsExists (st : ProfdataDir) : Bool := st.isSome

/-- Model of `fs::remove_dir_all`: removing an absent directory is an error. -/
def remove_dir_all (st : ProfdataDir) : Except String ProfdataDir :=
  match st with
  | some _ => .ok none
  | none => .error "failed to clean profdata dir"

/-- Model of `fs::create_dir`: creating an already-present directory is an
error; otherwise the directory now exists and is empty. -/
def create_dir (st : ProfdataDir) : Except String ProfdataDir :=
  match st with
  | none => .ok (some [])
  | some _ => .error "profdata dir already exists"

/-- Embedding of `clear_profdata` (src/main.rs:95-101), the artifact
store's `reset()`: remove the `.profdata` directory recursively when it
exists, then recreate it. -/
def clear_profdata (st : ProfdataDir) : Except String ProfdataDir := do
  let st ← if fsExists st then remove_dir_all st else pure st
  create_dir st

/-- The artifact directory constant `PROFDATA_DIR` (src/main.rs:13). -/
def PROFDATA_DIR : String := ".profdata"

/-- The merged-profile location constant `PROFDATA_PATH` (src/main.rs:14). -/
def PROFDATA_PATH : String := ".profdata/unittest.profdata"

/-- The glob the merge invocation passes to `sh -c` inside
`"rust-profdata merge -sparse default_*.profraw -o …"`
(src/main.rs:82-87). -/
def merge_glob : String := "default_*.profraw"

/-- The full `sh -c` command line of `generate_profdata`
(src/main.rs:82-87), given the destination path. -/
def merge_command (dest : String) : String :=
  "rust-profdata merge -sparse default_*.profraw -o " ++ dest

/-- Does `f` accept some suffix of the string (itself included)? -/
def anySuffix (f : List Char → Bool) : List Char → Bool
  | [] => f []
  | c :: s => f (c :: s) || anySuffix f s

/-- Shell glob matching for the pattern subset the merge command uses:
`*` matches any (possibly empty) character sequence, every other
pattern character matches itself literally. -/
def globMatch : List Char → List Char → Bool
  | [], s => s.isEmpty
  | c :: ps, s =>
    if c = '*' then anySuffix (fun suf => globMatch ps suf) s
    else
      match s with
      | [] => false
      | c' :: s' => c = c' && globMatch ps s'

/-- Model of `serde_json::Value`. -/
inductive Json where
  | null
  | bool (b : Bool)
  | num (q : ℚ)
  | str (text : String)
  | arr (items : List Json)
  | obj (fields : List (String × Json))

/-- Model of `serde_json` `Value` indexing `v[key]`: the entry of an object under
`key`, and `Null` when the key is absent or the value is not an
object. -/
def Json.index (j : Json) (key : String) : Json :=
  match j with
  | .obj entries =>
    match entries.find? (fun e => e.1 = key) with
    | some e => e.2
    | none => .null
  | _ => .null

/-- Model of `Value::as_bool`. -/
def Json.as_bool : Json → Option Bool
  | .bool b => some b
  | _ => none

/-- Model of `Value::as_array`. -/
def Json.as_array : Json → Option (List Json)
  | .arr elems => some elems
  | _ => none

/-- Model of `Value::as_str`. -/
def Json.as_str : Json → Option String
  | .str s => some s
  | _ => none

/-- The inner loop of `get_objects` over `target["filenames"]`
(src/main.rs:144-151): every element must be a string
(`.expect("filename was not a string")`), and the strings are pushed in
order. -/
def collect_paths (object_paths : List Json) : Except String (List String) :=
  match object_paths with
  | [] => .ok []
  | object_path :: rest =>
    match object_path.as_str with
    | some s => (collect_paths rest).map (fun paths => s :: paths)
    | none => .error "filename was not a string"

/-- Embedding of the line loop of `get_objects` (src/main.rs:136-154)
over the already-JSON-parsed build-event lines: a line whose
`["profile"]["test"]` is the boolean `true` contributes the string
entries of its `["filenames"]` array (a missing/non-array `filenames` is
the `.expect("filenames was not an array")` abort); every other line is
skipped. The process invocation and the per-line `serde_json::from_str`
are not modelled: the function receives the parsed `Value` of each
line. -/
def get_objects (targets : List Json) : Except String (List String) :=
  match targets with
  | [] => .ok []
  | target :: rest =>
    if ((target.index "profile").index "test").as_bool = some true then
      match (target.index "filenames").as_array with
      | none => .error "filenames was not an array"
      | some object_paths =>
        match collect_paths object_paths with
        | .error e => .error e
        | .ok paths => (get_objects rest).map (fun objects => paths ++ objects)
    else
      get_objects rest

end SimpleRustCov

namespace SimpleRustCov

example : coverage_pct_from_str "-" = .ok 1 := by
  simp [coverage_pct_from_str]

example : coverage_pct_from_str "96.00%" = .ok (96 / 100) := by
  simp [coverage_pct_from_str, takeUntilPct, parse_f32, parseExpSuffix, digitsVal]

example : coverage_pct_from_str "96.67%" = .ok (9667 / 10000) := by
  simp [coverage_pct_from_str, takeUntilPct, parse_f32, parseExpSuffix, digitsVal]
  norm_num

example : coverage_pct_from_str "abc%" =
    .error (.invalidFloat "coverage string was not a valid float") := by
  simp [coverage_pct_from_str, takeUntilPct, parse_f32, parseExpSuffix, digitsVal]

example : split_whitespace "TOTAL 100 0 100.00%" = ["TOTAL", "100", "0", "100.00%"] := by decide

example : strContains "a TOTAL row" "TOTAL" = true := by decide

example : strContains "nothing here" "TOTAL" = false := by decide

example :
    execute_report ["TOTAL 100 0 100.00% 50 2 96.00% 30 1 96.67%"] =
      .ok { line_coverage := 96 / 100, branch_coverage := 9667 / 10000 } := by
  simp [execute_report, find_coverage_line, strContains, containsAux, split_whitespace,
    split_ws_go, vecIndex, coverage_pct_from_str, takeUntilPct, parse_f32,
    parseExpSuffix, digitsVal, bind, Except.bind, pure, Except.pure]
  norm_num

example : execute_report ["TOTAL 1 2"] = .error (.indexOutOfBounds 6) := by
  simp [execute_report, find_coverage_line, strContains, containsAux, split_whitespace,
    split_ws_go, vecIndex, bind, Except.bind]

example :
    get_objects
        [.obj [("profile", .obj [("test", .bool true)]), ("filenames", .arr [.str "/tmp/bin_a"])],
         .obj [("profile", .obj [("test", .bool false)]), ("filenames", .arr [.str "/tmp/bin_b"])]] =
      .ok ["/tmp/bin_a"] := by
  simp [get_objects, Json.index, Json.as_bool, Json.as_array, Json.as_str, collect_paths,
    List.find?, Except.map]

example :
    evalGate { line_coverage := 96/100, branch_coverage := 9667/10000 }
        { min_line_coverage := 95/100, min_branch_coverage := 90/100 } =
      { exitCode := 0, output := .successMsg } := by
  norm_num [evalGate]

example :
    clear_profraw [⟨"default_1.profraw", true⟩, ⟨"src", false⟩, ⟨"Cargo.toml", true⟩] =
      [⟨"src", false⟩, ⟨"Cargo.toml", true⟩] := by decide

example : clear_profdata (some ["unittest.profdata"]) = .ok (some []) := by decide

example : clear_profdata none = .ok (some []) := by decide

end SimpleRustCov

namespace SimpleRustCov

/-- A prefix of `l₂` is a prefix of `l₂ ++ l₃`. -/
theorem isPrefixOf_append_right (l₁ l₂ l₃ : List Char)
    (h : l₁.isPrefixOf l₂ = true) : l₁.isPrefixOf (l₂ ++ l₃) = true := by
  simp at h ⊢
  obtain ⟨u, rfl⟩ := h
  exact ⟨u ++ l₃, by simp⟩

/-- A pattern that is a prefix of the text occurs in the text. -/
theorem containsAux_isPrefixOf (pat s : List Char)
    (h : pat.isPrefixOf s = true) : containsAux pat s = true := by
  cases s with
  | nil => exact h
  | cons c t =>
    show (pat.isPrefixOf (c :: t) || containsAux pat t) = true
    rw [h]
    rfl

/-- A pattern that is a prefix of `a` occurs in `a ++ b`. -/
theorem strContains_append_left (a b pat : String)
    (h : pat.data.isPrefixOf a.data = true) : strContains (a ++ b) pat = true := by
  unfold strContains
  rw [String.data_append]
  exact containsAux_isPrefixOf _ _ (isPrefixOf_append_right _ _ _ h)

/-- The takeWhile scan passes over a leading block that lies wholly
inside the predicate. -/
theorem takeWhile_through_block {α} (p : α → Bool) :
    ∀ (xs ys : List α), (∀ c ∈ xs, p c = true) →
      List.takeWhile p (xs ++ ys) = xs ++ List.takeWhile p ys
  | [], _, _ => rfl
  | a :: t, ys, h => by
    have ha : p a = true := h a (List.mem_cons_self a t)
    rw [List.cons_append, List.takeWhile_cons_of_pos ha,
      takeWhile_through_block p t ys (fun c hc => h c (List.mem_cons_of_mem a hc)),
      List.cons_append]

/-- If `f` accepts `post`, it accepts a suffix of `pre ++ post`. -/
theorem anySuffix_append (f : List Char → Bool) (pre post : List Char)
    (h : f post = true) : anySuffix f (pre ++ post) = true := by
  induction pre with
  | nil =>
    cases post with
    | nil => simpa [anySuffix] using h
    | cons c t => simp [anySuffix, h]
  | cons a t ih => simp [anySuffix, ih]

/-- Matching consumes equal star-free literal blocks from pattern and text. -/
theorem globMatch_lit_append (lit ps s : List Char)
    (hlit : ∀ c ∈ lit, ¬ c = '*') :
    globMatch (lit ++ ps) (lit ++ s) = globMatch ps s := by
  induction lit with
  | nil => rfl
  | cons c t ih =>
    have hc : ¬ c = '*' := hlit c (by simp)
    simp only [List.cons_append, globMatch, hc, if_false]
    simp [ih (fun x hx => hlit x (by simp [hx]))]

end SimpleRustCov

namespace SimpleRustCov

/-- C1: for every report and configuration, the gate exits with code 1
iff the line coverage is below the line minimum or the branch coverage
is below the branch minimum; when both meet their minimums it prints the
single success confirmation and exits with code 0; and the pass/fail
outcome does not depend on the order of the two comparisons. -/
theorem claim1_gate_fail_iff (report : Report) (config : RunConfiguration) :
    ((evalGate report config).exitCode = 1 ↔
      (report.line_coverage < config.min_line_coverage ∨
        report.branch_coverage < config.min_branch_coverage)) ∧
    ((¬ report.line_coverage < config.min_line_coverage ∧
        ¬ report.branch_coverage < config.min_branch_coverage) →
      evalGate report config = { exitCode := 0, output := .successMsg }) ∧
    (evalGate report config).exitCode = (evalGateBranchFirst report config).exitCode := by
  unfold evalGate evalGateBranchFirst
  split_ifs <;> simp_all

/-- Witness for C1 at a concrete passing report. -/
theorem claim1_gate_fail_iff_witness :
    evalGate { line_coverage := 1, branch_coverage := 1 }
        { min_line_coverage := 1/2, min_branch_coverage := 1/2 } =
      { exitCode := 0, output := .successMsg } :=
  (claim1_gate_fail_iff
    { line_coverage := 1, branch_coverage := 1 }
    { min_line_coverage := 1/2, min_branch_coverage := 1/2 }).2.1 (by norm_num)

/-- C4 (evidence of the source defect): at a report whose line coverage
meets its minimum while the branch coverage misses its minimum, the gate
exits with code 1, but the branch-failure message it prints interpolates
the line-coverage value and the line minimum — values distinct from the
observed branch coverage the claim requires it to name. -/
theorem claim4_branch_message_wrong_values :
    evalGate { line_coverage := 1, branch_coverage := 1/2 }
        { min_line_coverage := 9/10, min_branch_coverage := 9/10 } =
      { exitCode := 1, output := .branchFailMsg 1 (9/10) } ∧
    GateOutput.branchFailMsg (1 : ℚ) (9/10) ≠
      GateOutput.branchFailMsg (1/2 : ℚ) (9/10) := by
  constructor
  · norm_num [evalGate]
  · intro h
    rw [GateOutput.branchFailMsg.injEq] at h
    norm_num at h

/-- C8: from every prior state of the artifact directory — absent,
present and empty, or present with contents — `reset()`
(`clear_profdata`) succeeds and leaves the `.profdata` directory present
and empty, and running it twice in a row ends in the same state as
running it once. -/
theorem claim8_reset_idempotent (st : ProfdataDir) :
    clear_profdata st = .ok (some []) ∧
    (clear_profdata st).bind clear_profdata = .ok (some []) ∧
    PROFDATA_DIR = ".profdata" := by
  refine ⟨?_, ?_, rfl⟩ <;> cases st <;> rfl

/-- C6 counterexample: `"default.profraw"` starts with `"default"` and
ends with `".profraw"`, yet does not match the glob
`default_*.profraw` that `generate_profdata`'s merge command passes
(the glob requires the underscore). -/
theorem claim6_glob_counterexample :
    starts_with "default.profraw" "default" = true ∧
    ends_with "default.profraw" ".profraw" = true ∧
    globMatch merge_glob.data "default.profraw".data = false ∧
    strContains (merge_command PROFDATA_PATH) merge_glob = true := by decide

/-- C6 amended: every filename of the form `default_<anything>.profraw`
matches the glob `default_*.profraw` given in the merge invocation. -/
theorem claim6_glob_matches_fragments (mid : String) :
    globMatch merge_glob.data ("default_" ++ mid ++ ".profraw").data = true := by
  have hglob : merge_glob.data = "default_".data ++ ('*' :: ".profraw".data) := by decide
  have hdata : ("default_" ++ mid ++ ".profraw").data =
      "default_".data ++ (mid.data ++ ".profraw".data) := by
    rw [String.data_append, String.data_append, List.append_assoc]
  rw [hglob, hdata, globMatch_lit_append _ _ _ (by decide)]
  simp only [globMatch, if_pos rfl]
  exact anySuffix_append _ _ _ (by decide)

end SimpleRustCov

namespace SimpleRustCov

/-- C7: `purgeFragments` (`clear_profraw`) deletes exactly the regular
files of the immediate listing whose name starts with `"default"` and
ends with `".profraw"`: afterwards no such file remains, every entry not
of that shape (non-matching files and all directories) is still listed,
and every entry that disappeared was such a file. -/
theorem claim7_purge_exact (files : List DirEntry) :
    (∀ e ∈ clear_profraw files,
        ¬ (e.isFile = true ∧ starts_with e.name "default" = true ∧
            ends_with e.name ".profraw" = true)) ∧
    (∀ e ∈ files,
        ¬ (e.isFile = true ∧ starts_with e.name "default" = true ∧
            ends_with e.name ".profraw" = true) →
        e ∈ clear_profraw files) ∧
    (∀ e ∈ files, e ∉ clear_profraw files →
        e.isFile = true ∧ starts_with e.name "default" = true ∧
          ends_with e.name ".profraw" = true) := by
  refine ⟨?_, ?_, ?_⟩ <;> intro e he <;>
    simp only [clear_profraw, List.mem_filter, decide_eq_true_eq] at he ⊢ <;>
    tauto

/-- Witness for C7: a non-matching file survives a purge that removes a
matching fragment. -/
theorem claim7_purge_exact_witness :
    (⟨"Cargo.toml", true⟩ : DirEntry) ∈
      clear_profraw [⟨"default_1.profraw", true⟩, ⟨"src", false⟩, ⟨"Cargo.toml", true⟩] :=
  (claim7_purge_exact
      [⟨"default_1.profraw", true⟩, ⟨"src", false⟩, ⟨"Cargo.toml", true⟩]).2.1
    ⟨"Cargo.toml", true⟩ (by decide) (by decide)

/-- C9: parsing the reporter's stdout aborts with a fatal message
containing `"couldn't find coverage percentages"` iff no line of the
stdout contains the token `"TOTAL"`. -/
theorem claim9_missing_total_iff (stdout : List String) :
    (∃ msg, find_coverage_line stdout = .error (.notFound msg) ∧
        strContains msg "couldn't find coverage percentages" = true) ↔
    (∀ line ∈ stdout, strContains line "TOTAL" = false) := by
  unfold find_coverage_line
  cases h : stdout.find? (fun line => strContains line "TOTAL") with
  | some line =>
    constructor
    · rintro ⟨msg, hmsg, -⟩
      exact absurd hmsg (by simp)
    · intro hall
      have hp := List.find?_some h
      rw [hall line (List.mem_of_find?_eq_some h)] at hp
      exact absurd hp (by simp)
  | none =>
    constructor
    · intro _ line hline
      have hnone := List.find?_eq_none.mp h line hline
      simpa using hnone
    · intro _
      exact ⟨_, rfl, strContains_append_left _ _ _ (by decide)⟩

end SimpleRustCov

namespace SimpleRustCov

/-- C2: the literal `"-"` parses to exactly the fraction `1`; a token
`t ++ "%"` whose prefix `t` parses as a float `x` yields `x / 100`; and
a token ending in `'%'` whose prefix before the `'%'` is not a valid
float aborts with `"coverage string was not a valid float"`. -/
theorem claim2_coverage_token :
    coverage_pct_from_str "-" = .ok 1 ∧
    (∀ (t : String) (x : ℚ), t.data.all (fun c => ¬ c = '%') = true →
        parse_f32 t.data = some x →
        coverage_pct_from_str (t ++ "%") = .ok (x / 100)) ∧
    (∀ s : String, ends_with s "%" = true →
        parse_f32 (takeUntilPct s) = none →
        coverage_pct_from_str s =
          .error (.invalidFloat "coverage string was not a valid float")) := by
  refine ⟨by simp [coverage_pct_from_str], ?_, ?_⟩
  · intro t x hall hparse
    have hdata : (t ++ "%").data = t.data ++ ['%'] := by
      rw [String.data_append]
    have hne : (t ++ "%") ≠ "-" := by
      intro heq
      have hd := congrArg String.data heq
      rw [hdata] at hd
      cases ht : t.data with
      | nil => rw [ht] at hd; exact absurd hd (by decide)
      | cons c cs =>
        rw [ht] at hd
        have : (c :: (cs ++ ['%'])).length = ("-".data).length := by rw [← List.cons_append, hd]
        simp at this
    have htake : takeUntilPct (t ++ "%") = t.data := by
      unfold takeUntilPct
      rw [hdata, takeWhile_through_block _ _ _ (by simpa using hall)]
      simp
    unfold coverage_pct_from_str
    rw [if_neg hne, htake, hparse]
  · intro s hs hparse
    have hne : s ≠ "-" := by
      intro heq
      rw [heq] at hs
      exact absurd hs (by decide)
    unfold coverage_pct_from_str
    rw [if_neg hne, hparse]

/-- Witness for C2 at the concrete token `"96.00%"`. -/
theorem claim2_coverage_token_witness :
    coverage_pct_from_str ("96.00" ++ "%") = .ok (96 / 100) :=
  claim2_coverage_token.2.1 "96.00" 96 (by decide)
    (by simp [parse_f32, parseExpSuffix, digitsVal])

end SimpleRustCov

namespace SimpleRustCov

/-- C3: for every stdout whose first `"TOTAL"` line splits into fields
holding tokens `s6` at index 6 and `s9` at index 9, the parsed report is
built from exactly those two tokens — independent of every other column —
and on the documented row the result is line coverage `0.96` and branch
coverage `0.9667`. -/
theorem claim3_total_row_fields :
    (∀ (stdout : List String) (l s6 s9 : String),
        stdout.find? (fun line => strContains line "TOTAL") = some l →
        (split_whitespace l).get? 6 = some s6 →
        (split_whitespace l).get? 9 = some s9 →
        execute_report stdout =
          (do
            let line_coverage ← coverage_pct_from_str s6
            let branch_coverage ← coverage_pct_from_str s9
            return { line_coverage := line_coverage, branch_coverage := branch_coverage })) ∧
    execute_report ["TOTAL 100 0 100.00% 50 2 96.00% 30 1 96.67%"] =
      .ok { line_coverage := 96 / 100, branch_coverage := 9667 / 10000 } := by
  constructor
  · intro stdout l s6 s9 hfind h6 h9
    unfold execute_report find_coverage_line
    rw [hfind]
    simp only [Except.bind, bind]
    unfold vecIndex
    rw [h6, h9]
  · simp [execute_report, find_coverage_line, strContains, containsAux, split_whitespace,
      split_ws_go, vecIndex, coverage_pct_from_str, takeUntilPct, parse_f32,
      parseExpSuffix, digitsVal, bind, Except.bind, pure, Except.pure]
    norm_num

/-- Witness for C3 at the documented TOTAL row. -/
theorem claim3_total_row_fields_witness :
    execute_report ["TOTAL 100 0 100.00% 50 2 96.00% 30 1 96.67%"] =
      (do
        let line_coverage ← coverage_pct_from_str "96.00%"
        let branch_coverage ← coverage_pct_from_str "96.67%"
        return { line_coverage := line_coverage, branch_coverage := branch_coverage }) :=
  claim3_total_row_fields.1 ["TOTAL 100 0 100.00% 50 2 96.00% 30 1 96.67%"]
    "TOTAL 100 0 100.00% 50 2 96.00% 30 1 96.67%" "96.00%" "96.67%"
    (by decide) (by decide) (by decide)

/-- C10: when the first `"TOTAL"` line has fewer than 10
whitespace-separated fields, `execute_report` aborts with an
out-of-bounds index panic (at index 6 or 9), not with the descriptive
parse-failure message, and produces no report. -/
theorem claim10_short_total_row (stdout : List String) (l : String)
    (hfind : stdout.find? (fun line => strContains line "TOTAL") = some l)
    (hshort : (split_whitespace l).length < 10) :
    execute_report stdout = .error (.indexOutOfBounds 6) ∨
    execute_report stdout = .error (.indexOutOfBounds 9) := by
  unfold execute_report find_coverage_line
  rw [hfind]
  by_cases h6 : (split_whitespace l).length ≤ 6
  · left
    have hnone : (split_whitespace l).get? 6 = none := List.get?_eq_none.mpr h6
    rw [List.get?_eq_getElem?] at hnone
    simp [vecIndex, hnone, bind, Except.bind]
  · right
    push_neg at h6
    obtain ⟨s6, hs6⟩ : ∃ s, (split_whitespace l).get? 6 = some s :=
      ⟨_, List.get?_eq_get h6⟩
    have h9 : (split_whitespace l).get? 9 = none := List.get?_eq_none.mpr (by omega)
    rw [List.get?_eq_getElem?] at hs6 h9
    simp [vecIndex, hs6, h9, bind, Except.bind]

/-- Witness for C10: a TOTAL line with only three fields panics at index
6. -/
theorem claim10_short_total_row_witness :
    execute_report ["TOTAL 1 2"] = .error (.indexOutOfBounds 6) ∨
    execute_report ["TOTAL 1 2"] = .error (.indexOutOfBounds 9) :=
  claim10_short_total_row ["TOTAL 1 2"] "TOTAL 1 2" (by decide) (by decide)

end SimpleRustCov

namespace SimpleRustCov

/-- When every element is a JSON string, the inner loop succeeds with
exactly the string values, in order. -/
theorem collect_paths_all_str (elems : List Json)
    (h : ∀ e ∈ elems, e.as_str.isSome = true) :
    collect_paths elems = .ok (elems.filterMap Json.as_str) := by
  induction elems with
  | nil => rfl
  | cons e rest ih =>
    obtain ⟨s, hs⟩ := Option.isSome_iff_exists.mp (h e (by simp))
    rw [collect_paths, hs, ih (fun x hx => h x (by simp [hx]))]
    simp [List.filterMap_cons, hs, Except.map]

/-- C5: over a stream of valid JSON build-event objects in which every
object with `profile.test = true` carries a `filenames` array of
strings, the manifest is the in-order concatenation of those arrays'
entries; objects whose `profile.test` is absent, not a boolean, or
`false` contribute nothing. In particular the documented two-line stream
yields `["/tmp/bin_a"]` only. -/
theorem claim5_test_profile_manifest :
    (∀ targets : List Json,
        (∀ t ∈ targets,
            ((t.index "profile").index "test").as_bool = some true →
            (t.index "filenames").as_array.isSome = true ∧
            ∀ e ∈ (t.index "filenames").as_array.getD [], e.as_str.isSome = true) →
        get_objects targets = .ok (targets.flatMap (fun t =>
          if ((t.index "profile").index "test").as_bool = some true then
            ((t.index "filenames").as_array.getD []).filterMap Json.as_str
          else []))) ∧
    get_objects
        [.obj [("profile", .obj [("test", .bool true)]),
               ("filenames", .arr [.str "/tmp/bin_a"])],
         .obj [("profile", .obj [("test", .bool false)]),
               ("filenames", .arr [.str "/tmp/bin_b"])]] =
      .ok ["/tmp/bin_a"] := by
  constructor
  · intro targets hwf
    induction targets with
    | nil => rfl
    | cons target rest ih =>
      have ihrest := ih (fun t ht h => hwf t (by simp [ht]) h)
      by_cases hcond : ((target.index "profile").index "test").as_bool = some true
      · obtain ⟨hsome, hstrs⟩ := hwf target (by simp) hcond
        obtain ⟨arr, harr⟩ := Option.isSome_iff_exists.mp hsome
        rw [get_objects, if_pos hcond]
        simp only [harr]
        rw [collect_paths_all_str arr (by simpa [harr] using hstrs), ihrest]
        simp [List.flatMap_cons, hcond, harr, Except.map]
      · rw [get_objects, if_neg hcond, ihrest]
        simp [List.flatMap_cons, hcond]
  · simp [get_objects, Json.index, Json.as_bool, Json.as_array, Json.as_str,
      collect_paths, List.find?, Except.map]

/-- Witness for C5 at the documented two-line build-event stream. -/
theorem claim5_test_profile_manifest_witness :
    get_objects
        [.obj [("profile", .obj [("test", .bool true)]),
               ("filenames", .arr [.str "/tmp/bin_a"])],
         .obj [("profile", .obj [("test", .bool false)]),
               ("filenames", .arr [.str "/tmp/bin_b"])]] =
      .ok (([.obj [("profile", .obj [("test", .bool true)]),
                   ("filenames", .arr [.str "/tmp/bin_a"])],
             .obj [("profile", .obj [("test", .bool false)]),
                   ("filenames", .arr [.str "/tmp/bin_b"])]] : List Json).flatMap (fun t =>
          if ((t.index "profile").index "test").as_bool = some true then
            ((t.index "filenames").as_array.getD []).filterMap Json.as_str
          else [])) :=
  claim5_test_profile_manifest.1 _ (by decide)

end SimpleRustCov
